import Mathlib

/-!
Verification development for the document agent service.

Shallow embedding of the ingestion pipeline and document store:
  - src/app/models/document_models.py   (data model)
  - src/app/db/mongo/doc_repo.py        (MongoDocRepo store operations)
  - src/app/ingestion/watchers/local/local_handlers.py (DocumentHandler pipeline)

The MongoDB collection is modelled as a list of documents in natural
(insertion) order; replace_one / delete_one / update_one act on the first
match of their filter, which for the unique key _id coincides with the
single match.  Python Optional[str] is Option String; a raised exception is
an explicit error value threaded through the control flow.
-/

set_option maxHeartbeats 1000000

deriving instance DecidableEq for Except

namespace DocService

/- ===== Data model: src/app/models/document_models.py ===== -/

/-- DocumentMetadata (document_models.py lines 6-28).  datetime values are
modelled as integer timestamps; the free-form extra dict as a string map. -/
structure DocumentMetadata where
  filename : String
  size_bytes : Int
  mime : String
  title : Option String := none
  author : Option String := none
  created : Option Int := none
  modified : Option Int := none
  pages : Option Int := none
  lines : Option Int := none
  paragraphs : Option Int := none
  tables : Option Int := none
  creator : Option String := none
  extra : List (String × String) := []
deriving DecidableEq

/-- ParsedDocument (document_models.py lines 31-44). -/
structure ParsedDocument where
  id : String := ""
  filename : String
  path : String
  text : String
  metadata : DocumentMetadata
  keywords : List String := []
  topics : List String := []
  summary : Option String := none
deriving DecidableEq

/- ===== Python string helpers used by the handlers ===== -/

/-- Characters of the final path component: everything after the last '/'.
Models pathlib Path(p).name for the slash-separated paths of the handlers. -/
def lastSegment (sep : Char) (cs : List Char) : List Char :=
  cs.foldl (fun acc c => if c = sep then [] else acc ++ [c]) []

/-- pathlib Path(p).name. -/
def pyName (p : String) : String :=
  String.mk (lastSegment '/' p.data)

/-- Index of the last occurrence of a character, as in Python str.rfind. -/
def rfindIdx (c : Char) : List Char → Option Nat
  | [] => none
  | x :: xs =>
    match rfindIdx c xs with
    | some i => some (i + 1)
    | none => if x = c then some 0 else none

/-- pathlib Path(p).suffix: from the last dot of the final name component,
provided that dot is neither the first nor the last character of the name. -/
def pySuffix (p : String) : String :=
  let name := lastSegment '/' p.data
  match rfindIdx '.' name with
  | some i => if 0 < i ∧ i < name.length - 1 then String.mk (name.drop i) else ""
  | none => ""

/-- Python str.lower, character by character. -/
def pyLower (s : String) : String :=
  String.mk (s.data.map Char.toLower)

/-- Python s.startswith(pre). -/
def pyStartswith (s pre : String) : Bool :=
  pre.data.isPrefixOf s.data

/-- Python truthiness of an Optional[str]: None and the empty string are
falsy. -/
def strOptTruthy : Option String → Bool
  | some v => v != ""
  | none => false

/- ===== Mongo document store: src/app/db/mongo/doc_repo.py ===== -/

/-- One document of the Mongo "docs" collection.  Its _id is doc.id.
Besides the model_dump fields of ParsedDocument, a stored document can carry
the per-length summary map written only by set_summary (field
"summaries.<length>"), and an uploaded_at sort key; no code path of the
repository ever writes uploaded_at, so it is absent (none) in every document
this system produces. -/
structure MongoDoc where
  doc : ParsedDocument
  summaries : List (Int × String) := []
  uploaded_at : Option Int := none
deriving DecidableEq

/-- The Mongo document written by replace_one from doc.model_dump(): only the
ParsedDocument fields, so any previous summaries map or uploaded_at value of
the replaced document is dropped. -/
def toMongo (d : ParsedDocument) : MongoDoc := ⟨d, [], none⟩

/-- State of the docs collection: documents in natural (insertion) order,
plus a supply of fresh uuid4 hex values for upsert. -/
structure MongoStore where
  docs : List MongoDoc := []
  supply : Nat := 0
deriving DecidableEq

/-- Models uuid.uuid4().hex: a fresh identifier drawn from the supply. -/
def freshUuidHex (n : Nat) : String := "uuid" ++ Nat.repr n

/-- Replace the first element satisfying p by its image under f: the action
of replace_one / update_one on the first (for key _id: the only) match. -/
def updateFirst (p : α → Bool) (f : α → α) : List α → List α
  | [] => []
  | x :: xs => if p x then f x :: xs else x :: updateFirst p f xs

/-- MongoDocRepo.upsert (doc_repo.py lines 33-59): assign a fresh uuid4 hex
id when doc.id is empty, then replace_one by _id with upsert=True — replace
the whole existing document when the _id is present, else insert. -/
def MongoStore.upsert (s : MongoStore) (doc : ParsedDocument) : MongoStore × String :=
  let d := if doc.id = "" then { doc with id := freshUuidHex s.supply } else doc
  let supply := if doc.id = "" then s.supply + 1 else s.supply
  if s.docs.any (fun m => m.doc.id == d.id) then
    ({ docs := updateFirst (fun m => m.doc.id == d.id) (fun _ => toMongo d) s.docs,
       supply := supply }, d.id)
  else
    ({ docs := s.docs ++ [toMongo d], supply := supply }, d.id)

/-- MongoDocRepo.delete (doc_repo.py lines 61-69): delete_one by _id. -/
def MongoStore.delete (s : MongoStore) (docId : String) : MongoStore :=
  { s with docs := s.docs.eraseP (fun m => m.doc.id == docId) }

/-- MongoDocRepo.delete_by_path (doc_repo.py lines 71-83): delete_many on
exact path; returns the number of deleted documents. -/
def MongoStore.delete_by_path (s : MongoStore) (path : String) : MongoStore × Nat :=
  ({ s with docs := s.docs.filter (fun m => !(m.doc.path == path)) },
   (s.docs.filter (fun m => m.doc.path == path)).length)

/-- MongoDocRepo.get (doc_repo.py lines 85-105): find_one by _id; pydantic
drops the extra summaries / uploaded_at fields, leaving the ParsedDocument. -/
def MongoStore.get (s : MongoStore) (docId : String) : Option ParsedDocument :=
  (s.docs.find? (fun m => m.doc.id == docId)).map (fun m => m.doc)

/-- Projection {"text": 0} followed by raw["text"] = "" in list_meta and
query: the yielded record with its text field blanked. -/
def blankText (d : ParsedDocument) : ParsedDocument := { d with text := "" }

/-- Descending comparison on the optional uploaded_at sort key; a missing
key sorts like Mongo null, below every present value. -/
def uploadedGt : Option Int → Option Int → Bool
  | some a, some b => a > b
  | some _, none => true
  | none, _ => false

/-- Stable insertion for the descending sort on uploaded_at: the inserted
element precedes the first element whose key is not strictly greater, so
equal keys keep their original relative order. -/
def insertUploadedDesc (x : MongoDoc) : List MongoDoc → List MongoDoc
  | [] => [x]
  | y :: ys =>
    if uploadedGt y.uploaded_at x.uploaded_at then y :: insertUploadedDesc x ys
    else x :: y :: ys

/-- sort("uploaded_at", -1): stable descending sort on the optional key;
documents with equal (in particular: all-missing) keys keep natural order. -/
def sortUploadedDesc : List MongoDoc → List MongoDoc
  | [] => []
  | x :: xs => insertUploadedDesc x (sortUploadedDesc xs)

/-- MongoDocRepo.list_meta (doc_repo.py lines 107-127): every document,
text excluded then blanked, sorted by uploaded_at descending. -/
def MongoStore.list_meta (s : MongoStore) : List ParsedDocument :=
  (sortUploadedDesc s.docs).map (fun m => blankText m.doc)

/-- MongoDocRepo.exists (doc_repo.py lines 170-182). -/
def MongoStore.existsDoc (s : MongoStore) (docId : String) : Bool :=
  s.docs.any (fun m => m.doc.id == docId)

/-- MongoDocRepo.get_id_by_path (doc_repo.py lines 184-198): find_one on
exact path, projecting the _id; first match. -/
def MongoStore.get_id_by_path (s : MongoStore) (path : String) : Option String :=
  (s.docs.find? (fun m => m.doc.path == path)).map (fun m => m.doc.id)

/-- Errors raised by MongoDocRepo.query: the explicit ValueError when both
filters are None, and the MongoDB server rejection of find({"$or": []})
(an $or clause must be a nonempty array), which occurs when filters were
given but every given filter is an empty string, since the Python code adds
a clause only for a truthy value. -/
inductive QueryError
  | invalidArgument
  | emptyOrClause
deriving DecidableEq

/-- One member of the $or array built by query. -/
inductive QueryClause
  | onTopics (t : String)
  | onKeywords (k : String)
deriving DecidableEq

/-- The $or array of query (doc_repo.py lines 148-155): a topics clause if
topic is truthy, then a keywords clause if keyword is truthy. -/
def truthyClauses (topic keyword : Option String) : List QueryClause :=
  (match topic with
   | some t => if t = "" then [] else [QueryClause.onTopics t]
   | none => []) ++
  (match keyword with
   | some k => if k = "" then [] else [QueryClause.onKeywords k]
   | none => [])

/-- Match of one $or member against a stored document. -/
def docMatchesClause (m : MongoDoc) : QueryClause → Bool
  | QueryClause.onTopics t => m.doc.topics.contains t
  | QueryClause.onKeywords k => m.doc.keywords.contains k

/-- MongoDocRepo.query (doc_repo.py lines 129-168): ValueError when both
parameters are None; otherwise find on the $or of the truthy clauses with
text excluded then blanked. -/
def MongoStore.query (s : MongoStore) (topic keyword : Option String) :
    Except QueryError (List ParsedDocument) :=
  if topic = none ∧ keyword = none then Except.error QueryError.invalidArgument
  else
    let clauses := truthyClauses topic keyword
    if clauses.isEmpty then Except.error QueryError.emptyOrClause
    else Except.ok
      ((s.docs.filter (fun m => clauses.any (docMatchesClause m))).map
        (fun m => blankText m.doc))

/-- Write into the summaries map at one key, as $set on "summaries.<n>"
does: overwrite the entry when the key is present, else add it. -/
def setEntry : List (Int × String) → Int → String → List (Int × String)
  | [], n, v => [(n, v)]
  | (m, w) :: rest, n, v =>
    if m = n then (n, v) :: rest else (m, w) :: setEntry rest n v

/-- Lookup in the summaries map. -/
def getEntry : List (Int × String) → Int → Option String
  | [], _ => none
  | (m, w) :: rest, n => if m = n then some w else getEntry rest n

/-- MongoDocRepo.set_summary (doc_repo.py lines 200-214): update_one by _id
with $set on the single field "summaries.<length>"; with no matching _id it
modifies nothing and raises no error. -/
def MongoStore.set_summary (s : MongoStore) (docId : String) (length : Int)
    (summary : String) : MongoStore :=
  { s with
    docs := updateFirst (fun m => m.doc.id == docId)
      (fun m => { m with summaries := setEntry m.summaries length summary }) s.docs }

/- ===== Ingestion pipeline: local_handlers.py ===== -/

/-- Result of extract_document_info (local_handlers.py lines 18-23). -/
structure DocumentExtraction where
  keywords : List String
  topics : List String
  summary : String
deriving DecidableEq

/-- Exceptions that can cross a pipeline step: parse_file raising, the
enrichment chain raising, or a store call raising. -/
inductive PipelineError
  | parseError (msg : String)
  | enrichmentError (msg : String)
  | storeError (msg : String)
deriving DecidableEq

/-- Message text of an exception, for the handler log lines. -/
def errMsg : PipelineError → String
  | PipelineError.parseError m => m
  | PipelineError.enrichmentError m => m
  | PipelineError.storeError m => m

/-- The store calls the handlers make, for store-failure injection. -/
inductive StoreOp
  | opGetIdByPath
  | opDeleteByPath
  | opUpsert
  | opDelete
  | opGet
deriving DecidableEq

/-- Log levels of the logger calls in local_handlers.py. -/
inductive LogLevel
  | info
  | warning
  | error
deriving DecidableEq

/-- One logger call. -/
structure LogEntry where
  level : LogLevel
  msg : String
deriving DecidableEq

/-- The collaborators of DocumentHandler: the parser registry keys (already
lower-cased at registration, parsers/base.py line 18), parse_file, the
extract_document_info enrichment call keyed by the text it is given, the
os.walk file enumeration of process_directory, and a fault oracle saying
which store operations raise a StoreError. -/
structure Env where
  registry : List String
  parse : String → Except String ParsedDocument
  enrich : String → Except String DocumentExtraction
  walk : String → List String
  storeFault : StoreOp → Option String

/-- No store call fails. -/
def Env.noStoreFault (env : Env) : Prop := ∀ op, env.storeFault op = none

/-- process_file lines 188-212: registry check on Path(file_path).suffix
.lower(), parse_file, extract_document_info, assignment of the enrichment
fields, then db.upsert.  Returns the store, the log so far, and the pending
exception if one was raised. -/
def parseEnrichPersist (env : Env) (s : MongoStore) (file_path : String)
    (log : List LogEntry) : MongoStore × List LogEntry × Option PipelineError :=
  if !(env.registry.contains (pyLower (pySuffix file_path))) then
    (s, log ++ [⟨LogLevel.info, "Skipping unsupported file: " ++ file_path⟩], none)
  else
    let log := log ++ [⟨LogLevel.info, "Processing new file: " ++ file_path⟩]
    match env.parse file_path with
    | Except.error m => (s, log, some (PipelineError.parseError m))
    | Except.ok document =>
      match env.enrich document.text with
      | Except.error m => (s, log, some (PipelineError.enrichmentError m))
      | Except.ok info =>
        let document := { document with
          keywords := info.keywords, topics := info.topics,
          summary := some info.summary }
        match env.storeFault StoreOp.opUpsert with
        | some m => (s, log, some (PipelineError.storeError m))
        | none =>
          let r := s.upsert document
          (r.1, log ++ [⟨LogLevel.info, "Document processed successfully: " ++ r.2⟩],
           none)

/-- Body of the try block of process_file (lines 176-212): dedup lookup by
path, skip or force-delete, then parse-enrich-persist. -/
def processFileTry (env : Env) (s : MongoStore) (file_path : String)
    (force_update : Bool) : MongoStore × List LogEntry × Option PipelineError :=
  match env.storeFault StoreOp.opGetIdByPath with
  | some m => (s, [], some (PipelineError.storeError m))
  | none =>
    match s.get_id_by_path file_path with
    | some docId =>
      if force_update then
        let log := [⟨LogLevel.info, "Force updating existing document: " ++ docId⟩]
        match env.storeFault StoreOp.opDeleteByPath with
        | some m => (s, log, some (PipelineError.storeError m))
        | none => parseEnrichPersist env (s.delete_by_path file_path).1 file_path log
      else
        (s, [⟨LogLevel.info, "Document already exists, skipping: " ++ docId⟩], none)
    | none => parseEnrichPersist env s file_path []

/-- DocumentHandler.process_file (local_handlers.py lines 174-214).  The
whole body sits in try/except Exception: a raised exception is logged and
swallowed, so the third component — an exception escaping the call — is
always none. -/
def process_file (env : Env) (s : MongoStore) (file_path : String)
    (force_update : Bool) : MongoStore × List LogEntry × Option PipelineError :=
  match processFileTry env s file_path force_update with
  | (s1, log, none) => (s1, log, none)
  | (s1, log, some e) =>
    (s1, log ++ [⟨LogLevel.error, "Error processing file " ++ file_path ++ ": " ++ errMsg e⟩],
     none)

/-- DocumentHandler.handle_deleted_file (local_handlers.py lines 216-235).
Note the truthiness test if doc_id: on the looked-up Optional[str]. -/
def handle_deleted_file (env : Env) (s : MongoStore) (file_path : String) :
    MongoStore × List LogEntry :=
  let log := [⟨LogLevel.info, "Handling deleted file: " ++ file_path⟩]
  match env.storeFault StoreOp.opGetIdByPath with
  | some m =>
    (s, log ++ [⟨LogLevel.error, "Error handling deleted file " ++ file_path ++ ": " ++ m⟩])
  | none =>
    let docId? := s.get_id_by_path file_path
    if strOptTruthy docId? then
      match env.storeFault StoreOp.opDelete with
      | some m =>
        (s, log ++ [⟨LogLevel.error, "Error handling deleted file " ++ file_path ++ ": " ++ m⟩])
      | none =>
        let docId := docId?.getD ""
        (s.delete docId,
         log ++ [⟨LogLevel.info, "Document with ID " ++ docId ++ " deleted successfully"⟩])
    else
      (s, log ++ [⟨LogLevel.warning, "No document found for deleted file: " ++ file_path⟩])

/-- DocumentHandler.handle_moved_file (local_handlers.py lines 237-276):
look up the source path; when found and retrievable, set path (and filename
when the source and destination names differ) on the retrieved document and
upsert it; otherwise fall back to process_file on the destination.  The
outer try/except swallows any exception. -/
def handle_moved_file (env : Env) (s : MongoStore) (src_path dest_path : String) :
    MongoStore × List LogEntry :=
  let src_filename := pyName src_path
  let dest_filename := pyName dest_path
  let log := [⟨LogLevel.info, "Handling moved file from " ++ src_path ++ " to " ++ dest_path⟩]
  match env.storeFault StoreOp.opGetIdByPath with
  | some m =>
    (s, log ++ [⟨LogLevel.error,
      "Error handling moved file from " ++ src_path ++ " to " ++ dest_path ++ ": " ++ m⟩])
  | none =>
    let docId? := s.get_id_by_path src_path
    if strOptTruthy docId? then
      let docId := docId?.getD ""
      match env.storeFault StoreOp.opGet with
      | some m =>
        (s, log ++ [⟨LogLevel.error,
          "Error handling moved file from " ++ src_path ++ " to " ++ dest_path ++ ": " ++ m⟩])
      | none =>
        match s.get docId with
        | some doc =>
          let doc := { doc with path := dest_path }
          let doc := if src_filename != dest_filename
            then { doc with filename := dest_filename } else doc
          match env.storeFault StoreOp.opUpsert with
          | some m =>
            (s, log ++ [⟨LogLevel.error,
              "Error handling moved file from " ++ src_path ++ " to " ++ dest_path ++ ": " ++ m⟩])
          | none =>
            ((s.upsert doc).1,
             log ++ [⟨LogLevel.info,
               "Document with ID " ++ docId ++ " updated with new path: " ++ dest_path⟩])
        | none =>
          let r := process_file env s dest_path false
          (r.1, log ++ [⟨LogLevel.warning,
            "Document with ID " ++ docId ++ " found but could not be retrieved"⟩] ++ r.2.1)
    else
      let r := process_file env s dest_path false
      (r.1, log ++ [⟨LogLevel.info,
        "No document found for source path " ++ src_path ++ ", processing "
          ++ dest_path ++ " as a new file"⟩] ++ r.2.1)

/-- The deletion condition of _cleanup_deleted_files_in_directory (line
159-161): doc.path truthy, doc.path.startswith(dir_path), and doc.path not
in the observed file set. -/
def sweepCond (dir_path : String) (existing : List String) (d : ParsedDocument) : Bool :=
  (d.path != "") && pyStartswith d.path dir_path && !(existing.contains d.path)

/-- The loop of _cleanup_deleted_files_in_directory over the list_meta
snapshot: db.delete(doc.id) for every yielded document meeting the
condition. -/
def sweepDelete (dir_path : String) (existing : List String) :
    MongoStore → List ParsedDocument → MongoStore
  | s, [] => s
  | s, d :: rest =>
    if sweepCond dir_path existing d
    then sweepDelete dir_path existing (s.delete d.id) rest
    else sweepDelete dir_path existing s rest

/-- DocumentHandler._cleanup_deleted_files_in_directory (local_handlers.py
lines 148-172), with the async cursor modelled as the list_meta snapshot
taken at iteration start; store calls modelled fault-free (a fault would
only be logged by the surrounding except). -/
def cleanup_deleted_files_in_directory (s : MongoStore) (dir_path : String)
    (existing : List String) : MongoStore :=
  sweepDelete dir_path existing s s.list_meta

/-- The os.walk loop of process_directory (lines 134-140): process each
found file in order, accumulating store effects. -/
def scanFiles (env : Env) : MongoStore → List String → MongoStore
  | s, [] => s
  | s, f :: fs => scanFiles env (process_file env s f false).1 fs

/-- DocumentHandler.process_directory (local_handlers.py lines 128-146):
process every file found under dir_path, then reconcile: delete the store
records under dir_path whose file was not observed. -/
def process_directory (env : Env) (s : MongoStore) (dir_path : String) : MongoStore :=
  let files := env.walk dir_path
  cleanup_deleted_files_in_directory (scanFiles env s files) dir_path files

/-- Well-formedness of the docs collection as Mongo maintains it: _id is a
unique key, and every _id was produced either by a parser hash or by
uuid4().hex, never empty (upsert replaces an empty id before writing). -/
def MongoStore.wfIds (s : MongoStore) : Prop :=
  (s.docs.map (fun m => m.doc.id)).Nodup ∧ ∀ m ∈ s.docs, m.doc.id ≠ ""

instance (s : MongoStore) : Decidable s.wfIds := by
  unfold MongoStore.wfIds; infer_instance

/- ===== Concrete instances used in closed evaluation and witness theorems ===== -/

def mdTxt : DocumentMetadata :=
  { filename := "a.txt", size_bytes := 5, mime := "text/plain" }

def pdA : ParsedDocument :=
  { id := "ha", filename := "a.txt", path := "/w/a.txt", text := "alpha", metadata := mdTxt }

def pdB : ParsedDocument :=
  { id := "hb", filename := "b.txt", path := "/w/b.txt", text := "beta", metadata := mdTxt }

/-- Store obtained by upserting pdA first and pdB second: pdB is the more
recently uploaded document. -/
def sAB : MongoStore := ((({} : MongoStore).upsert pdA).1.upsert pdB).1

def pdBin : ParsedDocument :=
  { id := "hc", filename := "a.bin", path := "/w/a.bin", text := "bin", metadata := mdTxt }

/-- sAB plus a record whose file has an unsupported extension. -/
def sBin : MongoStore := (sAB.upsert pdBin).1

def extrOk : DocumentExtraction := { keywords := ["k"], topics := ["t"], summary := "sum" }

/-- Fault-free collaborators: .txt supported, parsing and enrichment succeed,
the walk of the watch root finds exactly the file of pdA. -/
def envOk : Env :=
  { registry := [".txt"]
    parse := fun p => Except.ok { pdA with path := p, filename := pyName p }
    enrich := fun _ => Except.ok extrOk
    walk := fun _ => ["/w/a.txt"]
    storeFault := fun _ => none }

/-- Enrichment raises for every text. -/
def envEnrichFail : Env := { envOk with enrich := fun _ => Except.error "LLM unavailable" }

/-- Parsing raises for every file. -/
def envParseFail : Env := { envOk with parse := fun _ => Except.error "corrupt file" }

/-- db.upsert raises a store error; everything else succeeds. -/
def envUpsertFault : Env :=
  { envOk with storeFault := fun op =>
      if op = StoreOp.opUpsert then some "MongoDB connection lost" else none }

/-- db.get_id_by_path raises a store error; everything else succeeds. -/
def envLookupFault : Env :=
  { envOk with storeFault := fun op =>
      if op = StoreOp.opGetIdByPath then some "MongoDB connection lost" else none }

/-- db.delete raises a store error; everything else succeeds. -/
def envDeleteFault : Env :=
  { envOk with storeFault := fun op =>
      if op = StoreOp.opDelete then some "MongoDB connection lost" else none }

/-- db.delete_by_path raises a store error; everything else succeeds. -/
def envDeleteByPathFault : Env :=
  { envOk with storeFault := fun op =>
      if op = StoreOp.opDeleteByPath then some "MongoDB connection lost" else none }

/-- db.get raises a store error; everything else succeeds. -/
def envGetFault : Env :=
  { envOk with storeFault := fun op =>
      if op = StoreOp.opGet then some "MongoDB connection lost" else none }

/-- A document with the empty string among its topics. -/
def pdT : ParsedDocument :=
  { id := "ht", filename := "t.txt", path := "/w/t.txt", text := "tt", metadata := mdTxt,
    topics := [""] }

/-- A document with topic a. -/
def pdT2 : ParsedDocument :=
  { id := "hu", filename := "u.txt", path := "/w/u.txt", text := "uu", metadata := mdTxt,
    topics := ["a"] }

def sQ : MongoStore := ((({} : MongoStore).upsert pdT).1.upsert pdT2).1

/- ===== Helper lemmas ===== -/

theorem updateFirst_map_eq {α β : Type} (p : α → Bool) (f : α → α) (g : α → β)
    (h : ∀ a, p a = true → g (f a) = g a) :
    ∀ l : List α, (updateFirst p f l).map g = l.map g
  | [] => rfl
  | x :: xs => by
    by_cases hp : p x = true
    · simp [updateFirst, hp, h x hp]
    · simp [updateFirst, hp, updateFirst_map_eq p f g h xs]

theorem find?_updateFirst {α : Type} (p : α → Bool) (f : α → α)
    (h : ∀ a, p a = true → p (f a) = true) :
    ∀ l : List α, (updateFirst p f l).find? p = (l.find? p).map f
  | [] => rfl
  | x :: xs => by
    by_cases hp : p x = true
    · simp [updateFirst, hp, List.find?_cons_of_pos, h x hp]
    · simp [updateFirst, hp, List.find?_cons_of_neg, find?_updateFirst p f h xs]

theorem mem_updateFirst_of_neg {α : Type} {p : α → Bool} {f : α → α} {a : α} :
    ∀ {l : List α}, a ∈ l → p a = false → a ∈ updateFirst p f l
  | x :: xs, ha, hpa => by
    rcases List.mem_cons.mp ha with rfl | hmem
    · simp [updateFirst, hpa]
    · by_cases hp : p x = true
      · simp [updateFirst, hp]; exact Or.inr hmem
      · simp only [updateFirst, hp, if_false]
        exact List.mem_cons.mpr (Or.inr (mem_updateFirst_of_neg hmem hpa))

theorem updateFirst_of_forall_neg {α : Type} {p : α → Bool} {f : α → α} :
    ∀ {l : List α}, (∀ a ∈ l, p a = false) → updateFirst p f l = l
  | [], _ => rfl
  | x :: xs, h => by
    have hx : p x = false := h x (List.mem_cons_self x xs)
    simp [updateFirst, hx, updateFirst_of_forall_neg (fun a ha => h a (List.mem_cons_of_mem x ha))]

theorem updateFirst_append_cons {α : Type} {p : α → Bool} {f : α → α} {x : α}
    (hx : p x = true) :
    ∀ (l1 l2 : List α), (∀ a ∈ l1, p a = false) →
      updateFirst p f (l1 ++ x :: l2) = l1 ++ f x :: l2
  | [], l2, _ => by simp [updateFirst, hx]
  | y :: ys, l2, h => by
    have hy : p y = false := h y (List.mem_cons_self y ys)
    have ih := updateFirst_append_cons (f := f) hx ys l2
      (fun a ha => h a (List.mem_cons_of_mem y ha))
    simp [updateFirst, hy, ih]

theorem length_updateFirst {α : Type} (p : α → Bool) (f : α → α) :
    ∀ l : List α, (updateFirst p f l).length = l.length
  | [] => rfl
  | x :: xs => by
    by_cases hp : p x = true
    · simp [updateFirst, hp]
    · simp [updateFirst, hp, length_updateFirst p f xs]

theorem eraseP_eq_filter_of_nodup_key {α β : Type} [DecidableEq β] (g : α → β) (c : β) :
    ∀ l : List α, (l.map g).Nodup →
      l.eraseP (fun a => g a == c) = l.filter (fun a => !(g a == c))
  | [], _ => rfl
  | x :: xs, hn => by
    rw [List.map_cons, List.nodup_cons] at hn
    by_cases hgx : g x = c
    · rw [List.eraseP_cons_of_pos (by simp [hgx])]
      have hxs : xs.filter (fun a => !(g a == c)) = xs := by
        apply List.filter_eq_self.mpr
        intro a ha
        have : g a ≠ c := by
          intro hc
          exact hn.1 (List.mem_map.mpr ⟨a, ha, by rw [hc, hgx]⟩)
        simp [this]
      simp [List.filter_cons, hgx, hxs]
    · rw [List.eraseP_cons_of_neg (by simp [hgx])]
      simp [List.filter_cons, hgx, eraseP_eq_filter_of_nodup_key g c xs hn.2]

theorem perm_insertUploadedDesc (x : MongoDoc) :
    ∀ l : List MongoDoc, (insertUploadedDesc x l).Perm (x :: l)
  | [] => List.Perm.refl _
  | y :: ys => by
    by_cases h : uploadedGt y.uploaded_at x.uploaded_at
    · simp only [insertUploadedDesc, h, if_true]
      exact ((perm_insertUploadedDesc x ys).cons y).trans (List.Perm.swap x y ys)
    · simp [insertUploadedDesc, h]

theorem perm_sortUploadedDesc : ∀ l : List MongoDoc, (sortUploadedDesc l).Perm l
  | [] => List.Perm.refl _
  | x :: xs =>
    (perm_insertUploadedDesc x (sortUploadedDesc xs)).trans ((perm_sortUploadedDesc xs).cons x)

theorem get_id_by_path_delete_by_path (s : MongoStore) (p : String) :
    (s.delete_by_path p).1.get_id_by_path p = none := by
  unfold MongoStore.delete_by_path MongoStore.get_id_by_path
  simp only [Option.map_eq_none']
  apply List.find?_eq_none.mpr
  intro m hm
  have := (List.mem_filter.mp hm).2
  simp only [Bool.not_eq_true'] at this
  simp [this]

theorem getEntry_setEntry (n : Int) (v : String) :
    ∀ (es : List (Int × String)) (k : Int),
      getEntry (setEntry es n v) k = if k = n then some v else getEntry es k
  | [], k => by
    by_cases h : k = n
    · simp [setEntry, getEntry, h]
    · have h2 : ¬ n = k := fun e => h e.symm
      simp [setEntry, getEntry, h, h2]
  | (m, w) :: rest, k => by
    by_cases hm : m = n
    · subst hm
      by_cases hk : k = m
      · simp [setEntry, getEntry, hk]
      · have h2 : ¬ m = k := fun e => hk e.symm
        simp [setEntry, getEntry, hk, h2]
    · by_cases hk : k = m
      · subst hk
        have h2 : ¬ k = n := hm
        simp [setEntry, getEntry, hm, h2]
      · have h2 : ¬ m = k := fun e => hk e.symm
        simp [setEntry, getEntry, hm, h2, getEntry_setEntry n v rest k]

theorem pyStartswith_ne_empty {s d : String} (hd : d ≠ "") (h : pyStartswith s d = true) :
    s ≠ "" := by
  intro hs
  subst hs
  unfold pyStartswith at h
  cases hdd : d.data with
  | nil => exact hd (String.ext hdd)
  | cons a as => rw [hdd] at h; simp [List.isPrefixOf] at h

theorem delete_docs_of_nodup (s : MongoStore) (i : String)
    (hn : (s.docs.map (fun m => m.doc.id)).Nodup) :
    (s.delete i).docs = s.docs.filter (fun m => !(m.doc.id == i)) := by
  have h := eraseP_eq_filter_of_nodup_key (fun m : MongoDoc => m.doc.id) i s.docs hn
  exact h

theorem nodup_ids_filter (l : List MongoDoc) (p : MongoDoc → Bool)
    (hn : (l.map (fun m => m.doc.id)).Nodup) :
    ((l.filter p).map (fun m => m.doc.id)).Nodup :=
  hn.sublist ((List.filter_sublist l).map (fun m => m.doc.id))

theorem sweepDelete_docs (dp : String) (ex : List String) :
    ∀ (lds : List ParsedDocument) (s : MongoStore),
      (s.docs.map (fun m => m.doc.id)).Nodup →
      (sweepDelete dp ex s lds).docs
        = s.docs.filter (fun m =>
            !(((lds.filter (sweepCond dp ex)).map (fun d => d.id)).contains m.doc.id))
  | [], s, _ => by
    simp [sweepDelete, List.filter_eq_self]
  | d :: rest, s, hn => by
    by_cases hc : sweepCond dp ex d = true
    · have hdel : (s.delete d.id).docs = s.docs.filter (fun m => !(m.doc.id == d.id)) :=
        delete_docs_of_nodup s d.id hn
      have hn2 : ((s.delete d.id).docs.map (fun m => m.doc.id)).Nodup := by
        rw [hdel]; exact nodup_ids_filter _ _ hn
      have ih := sweepDelete_docs dp ex rest (s.delete d.id) hn2
      rw [sweepDelete, if_pos hc, ih, hdel, List.filter_filter]
      simp only [List.filter_cons, hc, if_true, List.map_cons, List.contains_cons]
      apply List.filter_congr
      intro m _
      simp [Bool.not_or, Bool.and_comm]
    · have hc2 : sweepCond dp ex d = false := eq_false_of_ne_true hc
      have ih := sweepDelete_docs dp ex rest s hn
      rw [sweepDelete, if_neg hc, ih]
      simp [List.filter_cons, hc2]

theorem cleanup_docs_eq (s : MongoStore) (dp : String) (ex : List String)
    (hd : dp ≠ "")
    (hn : (s.docs.map (fun m => m.doc.id)).Nodup) :
    (cleanup_deleted_files_in_directory s dp ex).docs
      = s.docs.filter
          (fun m => !(pyStartswith m.doc.path dp && !(ex.contains m.doc.path))) := by
  unfold cleanup_deleted_files_in_directory
  rw [sweepDelete_docs dp ex s.list_meta s hn]
  apply List.filter_congr
  intro m hm
  congr 1
  have h1 : m.doc.id ∈ ((s.list_meta.filter (sweepCond dp ex)).map (fun d => d.id)) ↔
      (pyStartswith m.doc.path dp = true ∧ ¬ m.doc.path ∈ ex) := by
    constructor
    · intro hmem
      rcases List.mem_map.mp hmem with ⟨x, hx, hxid⟩
      rcases List.mem_filter.mp hx with ⟨hxl, hxc⟩
      unfold MongoStore.list_meta at hxl
      rcases List.mem_map.mp hxl with ⟨n, hnl, rfl⟩
      have hnmem : n ∈ s.docs := (perm_sortUploadedDesc s.docs).mem_iff.mp hnl
      unfold sweepCond at hxc
      simp only [blankText, Bool.and_eq_true, Bool.not_eq_true'] at hxc
      have hid : n.doc.id = m.doc.id := hxid
      have hnm : n = m := List.inj_on_of_nodup_map hn hnmem hm hid
      subst hnm
      refine ⟨hxc.1.2, fun hmemex => ?_⟩
      have hc : ex.contains n.doc.path = true := by simp [hmemex]
      rw [hxc.2] at hc
      exact Bool.false_ne_true hc
    · rintro ⟨hP, hE⟩
      apply List.mem_map.mpr
      refine ⟨blankText m.doc, ?_, rfl⟩
      apply List.mem_filter.mpr
      constructor
      · unfold MongoStore.list_meta
        exact List.mem_map.mpr ⟨m, (perm_sortUploadedDesc s.docs).mem_iff.mpr hm, rfl⟩
      · unfold sweepCond
        have hne : m.doc.path ≠ "" := pyStartswith_ne_empty hd hP
        have hE2 : ex.contains m.doc.path = false := by
          rcases h : ex.contains m.doc.path with _ | _
          · rfl
          · exact absurd (List.elem_iff.mp h) hE
        simp [blankText, hP, hne, hE2, hE]
  by_cases hP : pyStartswith m.doc.path dp = true
  · by_cases hE : m.doc.path ∈ ex
    · have hnot : ¬ m.doc.id ∈ ((s.list_meta.filter (sweepCond dp ex)).map (fun d => d.id)) :=
        fun hmm => (h1.mp hmm).2 hE
      simp [hP, hE, hnot]
    · have hyes : m.doc.id ∈ ((s.list_meta.filter (sweepCond dp ex)).map (fun d => d.id)) :=
        h1.mpr ⟨hP, hE⟩
      simp [hP, hE, hyes]
  · have hP2 : pyStartswith m.doc.path dp = false := eq_false_of_ne_true hP
    have hnot : ¬ m.doc.id ∈ ((s.list_meta.filter (sweepCond dp ex)).map (fun d => d.id)) :=
      fun hmm => hP (h1.mp hmm).1
    simp [hP2, hnot]

theorem process_file_of_try_ok {env : Env} {s : MongoStore} {p : String} {f : Bool}
    {s1 : MongoStore} {log : List LogEntry}
    (h : processFileTry env s p f = (s1, log, none)) :
    process_file env s p f = (s1, log, none) := by
  unfold process_file
  rw [h]

theorem process_file_of_try_exc {env : Env} {s : MongoStore} {p : String} {f : Bool}
    {s1 : MongoStore} {log : List LogEntry} {e : PipelineError}
    (h : processFileTry env s p f = (s1, log, some e)) :
    process_file env s p f
      = (s1, log ++ [⟨LogLevel.error, "Error processing file " ++ p ++ ": " ++ errMsg e⟩],
         none) := by
  unfold process_file
  rw [h]

theorem pep_unsupported {env : Env} {p : String}
    (hunsup : env.registry.contains (pyLower (pySuffix p)) = false) :
    ∀ (s0 : MongoStore) (log : List LogEntry),
      parseEnrichPersist env s0 p log
        = (s0, log ++ [⟨LogLevel.info, "Skipping unsupported file: " ++ p⟩], none) := by
  intro s0 log
  unfold parseEnrichPersist
  rw [hunsup]
  simp

theorem pep_parse_error {env : Env} {p : String} {m : String}
    (hsup : env.registry.contains (pyLower (pySuffix p)) = true)
    (hparse : env.parse p = Except.error m) :
    ∀ (s0 : MongoStore) (log : List LogEntry),
      parseEnrichPersist env s0 p log
        = (s0, log ++ [⟨LogLevel.info, "Processing new file: " ++ p⟩],
           some (PipelineError.parseError m)) := by
  intro s0 log
  unfold parseEnrichPersist
  simp [hsup, hparse]
  exact List.elem_iff.mp hsup

theorem pep_enrich_error {env : Env} {p : String} {pd : ParsedDocument} {m : String}
    (hsup : env.registry.contains (pyLower (pySuffix p)) = true)
    (hparse : env.parse p = Except.ok pd)
    (henrich : env.enrich pd.text = Except.error m) :
    ∀ (s0 : MongoStore) (log : List LogEntry),
      parseEnrichPersist env s0 p log
        = (s0, log ++ [⟨LogLevel.info, "Processing new file: " ++ p⟩],
           some (PipelineError.enrichmentError m)) := by
  intro s0 log
  unfold parseEnrichPersist
  simp [hsup, hparse, henrich]
  exact List.elem_iff.mp hsup

/- ===== Claim theorems ===== -/

/-- C1: when get_id_by_path finds a record for the path and force-update is
off, process_file returns right after the skip log line: the store is
unchanged, so a path that had exactly one record still has exactly one. -/
theorem C1_skip_existing_path (env : Env) (s : MongoStore) (p i : String)
    (hf : env.storeFault StoreOp.opGetIdByPath = none)
    (hid : s.get_id_by_path p = some i) :
    process_file env s p false
      = (s, [⟨LogLevel.info, "Document already exists, skipping: " ++ i⟩], none)
    ∧ (process_file env s p false).1.docs.countP (fun m => m.doc.path == p)
      = s.docs.countP (fun m => m.doc.path == p) := by
  have ht : processFileTry env s p false
      = (s, [⟨LogLevel.info, "Document already exists, skipping: " ++ i⟩], none) := by
    unfold processFileTry
    rw [hf, hid]
    rfl
  have h := process_file_of_try_ok ht
  exact ⟨h, by rw [h]⟩

theorem C1_skip_existing_path_witness :
    process_file envOk sAB "/w/a.txt" false
      = (sAB, [⟨LogLevel.info, "Document already exists, skipping: ha"⟩], none) := by
  have h := C1_skip_existing_path envOk sAB "/w/a.txt" "ha" rfl (by decide)
  exact h.1.trans (by decide)

/-- C8: a create event for a file with no registered parser for its
extension, no existing record at its path and no force flag leaves the
store unchanged and surfaces nothing beyond one info log line. -/
theorem C8_unsupported_extension_inert (env : Env) (s : MongoStore) (p : String)
    (hf : env.storeFault StoreOp.opGetIdByPath = none)
    (hnone : s.get_id_by_path p = none)
    (hunsup : env.registry.contains (pyLower (pySuffix p)) = false) :
    process_file env s p false
      = (s, [⟨LogLevel.info, "Skipping unsupported file: " ++ p⟩], none) := by
  have ht : processFileTry env s p false
      = (s, [⟨LogLevel.info, "Skipping unsupported file: " ++ p⟩], none) := by
    unfold processFileTry parseEnrichPersist
    rw [hf, hnone, hunsup]
    simp
  exact process_file_of_try_ok ht

theorem C8_unsupported_extension_inert_witness :
    process_file envOk sAB "/w/c.bin" false
      = (sAB, [⟨LogLevel.info, "Skipping unsupported file: /w/c.bin"⟩], none) := by
  have h := C8_unsupported_extension_inert envOk sAB "/w/c.bin" rfl (by decide) (by decide)
  exact h.trans (by decide)

/-- C9 counterexample: with db.upsert raising a StoreError, the event
handler process_file completes normally — the error is caught by the
handler's outer except, logged, and the returned exception slot is none, so
the triggering event's task does not fail and nothing propagates to the
caller of the handler. -/
theorem C9_counterexample :
    process_file envUpsertFault ({} : MongoStore) "/w/a.txt" false
      = (({} : MongoStore),
         [⟨LogLevel.info, "Processing new file: /w/a.txt"⟩,
          ⟨LogLevel.error, "Error processing file /w/a.txt: MongoDB connection lost"⟩],
         none) := by decide

/-- C9 (amended): wherever a Document Store call fails inside a watch event
handler — the path lookup in any handler, the force-path delete_by_path or
the upsert of process_file, the delete of handle_deleted_file, the get or
the upsert of handle_moved_file — the error is caught by the handler's
outer try/except: it is logged at error level, the handler returns normally
(for process_file the escaping-exception slot is none), and the store keeps
the state that preceded the failure, so the watch engine is unaffected. -/
theorem C9_store_error_logged_and_swallowed (env : Env) (s : MongoStore) (p src dest i : String)
    (doc pd : ParsedDocument) (ex : DocumentExtraction) (force : Bool) (m : String) :
    (env.storeFault StoreOp.opGetIdByPath = some m →
      process_file env s p force
        = (s, [⟨LogLevel.error, "Error processing file " ++ p ++ ": " ++ m⟩], none))
    ∧ (env.storeFault StoreOp.opGetIdByPath = none →
       env.storeFault StoreOp.opDeleteByPath = some m →
       s.get_id_by_path p = some i →
       process_file env s p true
         = (s, [⟨LogLevel.info, "Force updating existing document: " ++ i⟩,
                ⟨LogLevel.error, "Error processing file " ++ p ++ ": " ++ m⟩], none))
    ∧ (env.storeFault StoreOp.opGetIdByPath = none →
       s.get_id_by_path p = none →
       env.registry.contains (pyLower (pySuffix p)) = true →
       env.parse p = Except.ok pd →
       env.enrich pd.text = Except.ok ex →
       env.storeFault StoreOp.opUpsert = some m →
       process_file env s p false
         = (s, [⟨LogLevel.info, "Processing new file: " ++ p⟩,
                ⟨LogLevel.error, "Error processing file " ++ p ++ ": " ++ m⟩], none))
    ∧ (env.storeFault StoreOp.opGetIdByPath = some m →
       handle_deleted_file env s p
         = (s, [⟨LogLevel.info, "Handling deleted file: " ++ p⟩,
                ⟨LogLevel.error, "Error handling deleted file " ++ p ++ ": " ++ m⟩]))
    ∧ (env.storeFault StoreOp.opGetIdByPath = none →
       env.storeFault StoreOp.opDelete = some m →
       strOptTruthy (s.get_id_by_path p) = true →
       handle_deleted_file env s p
         = (s, [⟨LogLevel.info, "Handling deleted file: " ++ p⟩,
                ⟨LogLevel.error, "Error handling deleted file " ++ p ++ ": " ++ m⟩]))
    ∧ (env.storeFault StoreOp.opGetIdByPath = some m →
       handle_moved_file env s src dest
         = (s, [⟨LogLevel.info, "Handling moved file from " ++ src ++ " to " ++ dest⟩,
                ⟨LogLevel.error, "Error handling moved file from " ++ src ++ " to "
                  ++ dest ++ ": " ++ m⟩]))
    ∧ (env.storeFault StoreOp.opGetIdByPath = none →
       env.storeFault StoreOp.opGet = some m →
       strOptTruthy (s.get_id_by_path src) = true →
       handle_moved_file env s src dest
         = (s, [⟨LogLevel.info, "Handling moved file from " ++ src ++ " to " ++ dest⟩,
                ⟨LogLevel.error, "Error handling moved file from " ++ src ++ " to "
                  ++ dest ++ ": " ++ m⟩]))
    ∧ (env.storeFault StoreOp.opGetIdByPath = none →
       env.storeFault StoreOp.opGet = none →
       env.storeFault StoreOp.opUpsert = some m →
       s.get_id_by_path src = some i → i ≠ "" → s.get i = some doc →
       handle_moved_file env s src dest
         = (s, [⟨LogLevel.info, "Handling moved file from " ++ src ++ " to " ++ dest⟩,
                ⟨LogLevel.error, "Error handling moved file from " ++ src ++ " to "
                  ++ dest ++ ": " ++ m⟩])) := by
  refine ⟨?_, ?_, ?_, ?_, ?_, ?_, ?_, ?_⟩
  · intro h1
    have ht : processFileTry env s p force = (s, [], some (PipelineError.storeError m)) := by
      unfold processFileTry
      rw [h1]
    simpa using process_file_of_try_exc ht
  · intro h1 h2 hid
    have ht : processFileTry env s p true
        = (s, [⟨LogLevel.info, "Force updating existing document: " ++ i⟩],
           some (PipelineError.storeError m)) := by
      unfold processFileTry
      rw [h1, hid]
      simp only [if_true]
      rw [h2]
    simpa using process_file_of_try_exc ht
  · intro h1 hnone hsup hparse henrich hfU
    have ht : processFileTry env s p false
        = (s, [⟨LogLevel.info, "Processing new file: " ++ p⟩],
           some (PipelineError.storeError m)) := by
      unfold processFileTry parseEnrichPersist
      rw [h1, hnone]
      simp [hsup, hparse, henrich, hfU]
      exact List.elem_iff.mp hsup
    simpa using process_file_of_try_exc ht
  · intro h1
    unfold handle_deleted_file
    rw [h1]
    rfl
  · intro h1 h2 htr
    unfold handle_deleted_file
    rw [h1]
    simp [htr, h2]
  · intro h1
    unfold handle_moved_file
    rw [h1]
    rfl
  · intro h1 h2 htr
    unfold handle_moved_file
    rw [h1]
    simp [htr, h2]
  · intro h1 h2 h3 hid hine hget
    unfold handle_moved_file
    simp only [h1, h2, h3, hid]
    simp [strOptTruthy, hine, hget]

theorem C9_store_error_logged_and_swallowed_witness :
    (process_file envLookupFault sAB "/w/a.txt" false
      = (sAB, [⟨LogLevel.error, "Error processing file /w/a.txt: MongoDB connection lost"⟩],
         none))
    ∧ (process_file envDeleteByPathFault sAB "/w/a.txt" true
      = (sAB, [⟨LogLevel.info, "Force updating existing document: ha"⟩,
               ⟨LogLevel.error, "Error processing file /w/a.txt: MongoDB connection lost"⟩],
         none))
    ∧ (process_file envUpsertFault sAB "/w/n.txt" false
      = (sAB, [⟨LogLevel.info, "Processing new file: /w/n.txt"⟩,
               ⟨LogLevel.error, "Error processing file /w/n.txt: MongoDB connection lost"⟩],
         none))
    ∧ (handle_deleted_file envLookupFault sAB "/w/a.txt"
      = (sAB, [⟨LogLevel.info, "Handling deleted file: /w/a.txt"⟩,
               ⟨LogLevel.error,
                 "Error handling deleted file /w/a.txt: MongoDB connection lost"⟩]))
    ∧ (handle_deleted_file envDeleteFault sAB "/w/a.txt"
      = (sAB, [⟨LogLevel.info, "Handling deleted file: /w/a.txt"⟩,
               ⟨LogLevel.error,
                 "Error handling deleted file /w/a.txt: MongoDB connection lost"⟩]))
    ∧ (handle_moved_file envLookupFault sAB "/w/a.txt" "/w/c.txt"
      = (sAB, [⟨LogLevel.info, "Handling moved file from /w/a.txt to /w/c.txt"⟩,
               ⟨LogLevel.error,
                 "Error handling moved file from /w/a.txt to /w/c.txt: MongoDB connection lost"⟩]))
    ∧ (handle_moved_file envGetFault sAB "/w/a.txt" "/w/c.txt"
      = (sAB, [⟨LogLevel.info, "Handling moved file from /w/a.txt to /w/c.txt"⟩,
               ⟨LogLevel.error,
                 "Error handling moved file from /w/a.txt to /w/c.txt: MongoDB connection lost"⟩]))
    ∧ (handle_moved_file envUpsertFault sAB "/w/a.txt" "/w/c.txt"
      = (sAB, [⟨LogLevel.info, "Handling moved file from /w/a.txt to /w/c.txt"⟩,
               ⟨LogLevel.error,
                 "Error handling moved file from /w/a.txt to /w/c.txt: MongoDB connection lost"⟩])) := by
  refine ⟨?_, ?_, ?_, ?_, ?_, ?_, ?_, ?_⟩
  · have h := (C9_store_error_logged_and_swallowed envLookupFault sAB "/w/a.txt" "" "" ""
      pdA pdA extrOk false "MongoDB connection lost").1 rfl
    exact h.trans (by decide)
  · have h := (C9_store_error_logged_and_swallowed envDeleteByPathFault sAB "/w/a.txt" "" ""
      "ha" pdA pdA extrOk false "MongoDB connection lost").2.1 rfl rfl (by decide)
    exact h.trans (by decide)
  · have h := (C9_store_error_logged_and_swallowed envUpsertFault sAB "/w/n.txt" "" "" ""
      pdA { pdA with path := "/w/n.txt", filename := "n.txt" } extrOk false
      "MongoDB connection lost").2.2.1 rfl (by decide) (by decide) (by decide) (by decide) rfl
    exact h.trans (by decide)
  · have h := (C9_store_error_logged_and_swallowed envLookupFault sAB "/w/a.txt" "" "" ""
      pdA pdA extrOk false "MongoDB connection lost").2.2.2.1 rfl
    exact h.trans (by decide)
  · have h := (C9_store_error_logged_and_swallowed envDeleteFault sAB "/w/a.txt" "" "" ""
      pdA pdA extrOk false "MongoDB connection lost").2.2.2.2.1 rfl rfl (by decide)
    exact h.trans (by decide)
  · have h := (C9_store_error_logged_and_swallowed envLookupFault sAB "" "/w/a.txt" "/w/c.txt"
      "" pdA pdA extrOk false "MongoDB connection lost").2.2.2.2.2.1 rfl
    exact h.trans (by decide)
  · have h := (C9_store_error_logged_and_swallowed envGetFault sAB "" "/w/a.txt" "/w/c.txt"
      "" pdA pdA extrOk false "MongoDB connection lost").2.2.2.2.2.2.1 rfl rfl (by decide)
    exact h.trans (by decide)
  · have h := (C9_store_error_logged_and_swallowed envUpsertFault sAB "" "/w/a.txt" "/w/c.txt"
      "ha" pdA pdA extrOk false "MongoDB connection lost").2.2.2.2.2.2.2 rfl rfl rfl
      (by decide) (by decide) (by decide)
    exact h.trans (by decide)

/-- C2: when the enrichment call for a file raises — which presupposes the
run reached enrichment, i.e. no record was found at the path or the update
was forced — process_file persists nothing for that file: after the call no
record with that path is in the store, and no exception escapes the
handler. -/
theorem C2_enrichment_failure_no_record (env : Env) (s : MongoStore) (p : String)
    (force : Bool) (pd : ParsedDocument) (m : String)
    (hf1 : env.storeFault StoreOp.opGetIdByPath = none)
    (hf2 : env.storeFault StoreOp.opDeleteByPath = none)
    (hreach : s.get_id_by_path p = none ∨ force = true)
    (hsup : env.registry.contains (pyLower (pySuffix p)) = true)
    (hparse : env.parse p = Except.ok pd)
    (henrich : env.enrich pd.text = Except.error m) :
    (process_file env s p force).1.get_id_by_path p = none
    ∧ (process_file env s p force).2.2 = none := by
  have hpep := pep_enrich_error hsup hparse henrich
  have hnone_case : s.get_id_by_path p = none →
      (process_file env s p force).1.get_id_by_path p = none
      ∧ (process_file env s p force).2.2 = none := by
    intro h0
    have ht : processFileTry env s p force
        = (s, [⟨LogLevel.info, "Processing new file: " ++ p⟩],
           some (PipelineError.enrichmentError m)) := by
      unfold processFileTry
      rw [hf1, h0]
      simpa using hpep s []
    rw [process_file_of_try_exc ht]
    exact ⟨h0, rfl⟩
  rcases hreach with h0 | hforce
  · exact hnone_case h0
  · subst hforce
    cases hgi : s.get_id_by_path p with
    | none => exact hnone_case hgi
    | some i =>
      have ht : processFileTry env s p true
          = ((s.delete_by_path p).1,
             [⟨LogLevel.info, "Force updating existing document: " ++ i⟩,
              ⟨LogLevel.info, "Processing new file: " ++ p⟩],
             some (PipelineError.enrichmentError m)) := by
        unfold processFileTry
        rw [hf1, hgi]
        simp only [if_true]
        rw [hf2]
        simpa using hpep (s.delete_by_path p).1
          [⟨LogLevel.info, "Force updating existing document: " ++ i⟩]
      rw [process_file_of_try_exc ht]
      exact ⟨get_id_by_path_delete_by_path s p, rfl⟩

theorem C2_enrichment_failure_no_record_witness :
    (process_file envEnrichFail ({} : MongoStore) "/w/a.txt" false).1.get_id_by_path "/w/a.txt"
      = none
    ∧ (process_file envEnrichFail ({} : MongoStore) "/w/a.txt" false).2.2 = none :=
  C2_enrichment_failure_no_record envEnrichFail ({} : MongoStore) "/w/a.txt" false
    pdA "LLM unavailable" rfl rfl (Or.inl (by decide)) (by decide) (by decide) rfl

/-- C5: process_file with force-update on a path that has a record deletes
by path before the registry check, the parse and the enrichment; if any of
those then fails, the call ends with the store equal to the
delete_by_path result — the old record is gone, nothing replaces it, and no
exception escapes. -/
theorem C5_force_update_not_atomic (env : Env) (s : MongoStore) (p i : String)
    (hf1 : env.storeFault StoreOp.opGetIdByPath = none)
    (hf2 : env.storeFault StoreOp.opDeleteByPath = none)
    (hid : s.get_id_by_path p = some i)
    (hfail : env.registry.contains (pyLower (pySuffix p)) = false
      ∨ (∃ m, env.parse p = Except.error m)
      ∨ (∃ pd m, env.parse p = Except.ok pd ∧ env.enrich pd.text = Except.error m)) :
    (process_file env s p true).1 = (s.delete_by_path p).1
    ∧ (process_file env s p true).1.get_id_by_path p = none
    ∧ (process_file env s p true).2.2 = none := by
  have hstep : ∀ r : MongoStore × List LogEntry × Option PipelineError,
      parseEnrichPersist env (s.delete_by_path p).1 p
        [⟨LogLevel.info, "Force updating existing document: " ++ i⟩] = r →
      processFileTry env s p true = r := by
    intro r hr
    unfold processFileTry
    rw [hf1, hid]
    simp only [if_true]
    rw [hf2]
    exact hr
  by_cases hreg : env.registry.contains (pyLower (pySuffix p)) = true
  · rcases hfail with hunsup | ⟨m, hparse⟩ | ⟨pd, m, hparse, henrich⟩
    · rw [hreg] at hunsup
      exact absurd hunsup (by simp)
    · have ht := hstep _ (pep_parse_error hreg hparse (s.delete_by_path p).1
        [⟨LogLevel.info, "Force updating existing document: " ++ i⟩])
      rw [process_file_of_try_exc ht]
      exact ⟨rfl, get_id_by_path_delete_by_path s p, rfl⟩
    · have ht := hstep _ (pep_enrich_error hreg hparse henrich (s.delete_by_path p).1
        [⟨LogLevel.info, "Force updating existing document: " ++ i⟩])
      rw [process_file_of_try_exc ht]
      exact ⟨rfl, get_id_by_path_delete_by_path s p, rfl⟩
  · have hreg2 := eq_false_of_ne_true hreg
    have ht := hstep _ (pep_unsupported hreg2 (s.delete_by_path p).1
      [⟨LogLevel.info, "Force updating existing document: " ++ i⟩])
    rw [process_file_of_try_ok ht]
    exact ⟨rfl, get_id_by_path_delete_by_path s p, rfl⟩

theorem C5_force_update_not_atomic_witness :
    (process_file envOk sBin "/w/a.bin" true).1 = (sBin.delete_by_path "/w/a.bin").1
    ∧ (process_file envOk sBin "/w/a.bin" true).1.get_id_by_path "/w/a.bin" = none
    ∧ (process_file envOk sBin "/w/a.bin" true).2.2 = none :=
  C5_force_update_not_atomic envOk sBin "/w/a.bin" "hc" rfl rfl (by decide)
    (Or.inl (by decide))

/-- C4: a move event whose source path resolves to a stored document (a
truthy id, the document retrievable) updates that record in place via
upsert: the path becomes the destination, the filename becomes the
destination name exactly when the two names differ, the id set of the store
is unchanged (same id, no new record), every other record is untouched, and
the record text, metadata, keywords, topics and summary are carried over
unchanged — no re-parse, no re-enrichment. -/
theorem C4_move_preserves_identity (env : Env) (s : MongoStore) (src dest i : String)
    (doc : ParsedDocument)
    (hf : env.noStoreFault)
    (hwf : s.wfIds)
    (hid : s.get_id_by_path src = some i)
    (hget : s.get i = some doc) :
    ((handle_moved_file env s src dest).1.docs.map (fun m => m.doc.id)
       = s.docs.map (fun m => m.doc.id))
    ∧ (handle_moved_file env s src dest).1.get i
        = some { doc with
                   path := dest,
                   filename := if pyName src != pyName dest then pyName dest
                     else doc.filename }
    ∧ ∀ m ∈ s.docs, m.doc.id ≠ i → m ∈ (handle_moved_file env s src dest).1.docs := by
  have hget2 := hget
  unfold MongoStore.get at hget2
  rcases Option.map_eq_some'.mp hget2 with ⟨m0, hfind, hm0doc⟩
  have hm0mem := List.mem_of_find?_eq_some hfind
  have hm0id : m0.doc.id = i := by
    have := List.find?_some hfind
    simpa using this
  have hine : i ≠ "" := by
    rw [← hm0id]
    exact hwf.2 m0 hm0mem
  have hdocid : doc.id = i := by rw [← hm0doc, hm0id]
  -- the document written by the upsert
  have hd2 : (if (pyName src != pyName dest) = true
        then { doc with path := dest, filename := pyName dest }
        else ({ doc with path := dest } : ParsedDocument))
      = { doc with
            path := dest,
            filename := if pyName src != pyName dest then pyName dest
              else doc.filename } := by
    by_cases h : (pyName src != pyName dest) = true
    · simp [h]
    · simp [h]
  have hrun : (handle_moved_file env s src dest).1
      = (s.upsert { doc with
            path := dest,
            filename := if pyName src != pyName dest then pyName dest
              else doc.filename }).1 := by
    unfold handle_moved_file
    simp only [hf StoreOp.opGetIdByPath, hf StoreOp.opGet, hf StoreOp.opUpsert, hid]
    simp [strOptTruthy, hine, hget]
    by_cases hfn : pyName src = pyName dest <;> simp [hfn]
  set d2 : ParsedDocument := ({ doc with
      path := dest,
      filename := if pyName src != pyName dest then pyName dest
        else doc.filename } : ParsedDocument) with hd2def
  have hany : s.docs.any (fun m => m.doc.id == d2.id) = true :=
    List.any_eq_true.mpr ⟨m0, hm0mem, by simp [hm0id, hdocid]⟩
  have hdocs : (s.upsert d2).1.docs
      = updateFirst (fun m => m.doc.id == i) (fun _ => toMongo d2) s.docs := by
    unfold MongoStore.upsert
    have hne2 : ¬ d2.id = "" := by
      show ¬ doc.id = ""
      rw [hdocid]; exact hine
    have hex : ∃ x ∈ s.docs, x.doc.id = i := ⟨m0, hm0mem, hm0id⟩
    simp [hne2, hex, hdocid, hine]
  refine ⟨?_, ?_, ?_⟩
  · rw [hrun, hdocs]
    exact updateFirst_map_eq _ _ _
      (fun a ha => by
        have : a.doc.id = i := by simpa using ha
        simp [toMongo, this, hdocid]) s.docs
  · rw [hrun]
    unfold MongoStore.get
    rw [hdocs, find?_updateFirst _ _
      (fun a ha => by simp [toMongo, hdocid]) s.docs, hfind]
    simp [toMongo]
  · intro m hm hmne
    rw [hrun, hdocs]
    exact mem_updateFirst_of_neg hm (by simp [hmne])

theorem C4_move_preserves_identity_witness :
    ((handle_moved_file envOk sAB "/w/a.txt" "/w/c.txt").1.docs.map (fun m => m.doc.id)
       = ["ha", "hb"])
    ∧ (handle_moved_file envOk sAB "/w/a.txt" "/w/c.txt").1.get "ha"
        = some { pdA with path := "/w/c.txt", filename := "c.txt" }
    ∧ toMongo pdB ∈ (handle_moved_file envOk sAB "/w/a.txt" "/w/c.txt").1.docs := by
  have h := C4_move_preserves_identity envOk sAB "/w/a.txt" "/w/c.txt" "ha" pdA
    (fun op => rfl) (by decide) (by decide) (by decide)
  refine ⟨h.1.trans (by decide), h.2.1.trans (by decide), ?_⟩
  exact h.2.2 (toMongo pdB) (by decide) (by decide)

/-- C3: after the bulk scan of a root d has processed every file found
under d, the reconciliation sweep deletes exactly the records whose path is
prefixed by d but absent from the observed file set, and keeps every record
whose path was observed untouched. -/
theorem C3_reconciliation_sweep (env : Env) (s : MongoStore) (d : String)
    (hd : d ≠ "")
    (hwf : ((scanFiles env s (env.walk d)).docs.map (fun m => m.doc.id)).Nodup) :
    (process_directory env s d).docs
      = (scanFiles env s (env.walk d)).docs.filter
          (fun m => !(pyStartswith m.doc.path d && !((env.walk d).contains m.doc.path)))
    ∧ ∀ m ∈ (scanFiles env s (env.walk d)).docs,
        m.doc.path ∈ env.walk d → m ∈ (process_directory env s d).docs := by
  have h := cleanup_docs_eq (scanFiles env s (env.walk d)) d (env.walk d) hd hwf
  have hpd : process_directory env s d
      = cleanup_deleted_files_in_directory (scanFiles env s (env.walk d)) d (env.walk d) :=
    rfl
  constructor
  · rw [hpd]
    exact h
  · intro m hm hpath
    rw [hpd, h]
    apply List.mem_filter.mpr
    refine ⟨hm, ?_⟩
    have hc : (env.walk d).contains m.doc.path = true := by simp [hpath]
    simp [hc, hpath]

theorem C3_reconciliation_sweep_witness :
    (process_directory envOk sAB "/w").docs = [toMongo pdA]
    ∧ toMongo pdA ∈ (process_directory envOk sAB "/w").docs := by
  have h := C3_reconciliation_sweep envOk sAB "/w" (by decide) (by decide)
  exact ⟨h.1.trans (by decide), h.2 (toMongo pdA) (by decide) (by decide)⟩

/-- C6 counterexample: topic is given as the empty string and keyword as
kw; the store holds a record whose topics contain the given topic, so the
claim requires it to be streamed, yet query returns an empty stream — the
code adds a clause only for a truthy filter value and silently drops the
given empty-string topic filter. -/
theorem C6_counterexample :
    sQ.query (some "") (some "kw") = Except.ok []
    ∧ toMongo pdT ∈ sQ.docs
    ∧ pdT.topics.contains "" = true := by decide

/-- C6 (amended): query raises ValueError exactly when both filters are
None.  A given but empty-string filter contributes no clause: when at least
one given filter is nonempty, the stream is exactly the text-blanked
records matching the OR of the nonempty given filters; when filters were
given but all given values are empty strings, the find fails on an empty
$or array instead of streaming. -/
theorem C6_query_semantics (s : MongoStore) (topic keyword : Option String) :
    ((s.query topic keyword = Except.error QueryError.invalidArgument)
       ↔ (topic = none ∧ keyword = none))
    ∧ (¬(topic = none ∧ keyword = none) →
        (strOptTruthy topic || strOptTruthy keyword) = false →
        s.query topic keyword = Except.error QueryError.emptyOrClause)
    ∧ ((strOptTruthy topic || strOptTruthy keyword) = true →
        s.query topic keyword
          = Except.ok ((s.docs.filter (fun m =>
              (strOptTruthy topic && m.doc.topics.contains (topic.getD ""))
              || (strOptTruthy keyword && m.doc.keywords.contains (keyword.getD "")))).map
              (fun m => blankText m.doc))) := by
  refine ⟨?_, ?_, ?_⟩
  · rcases topic with _ | t <;> rcases keyword with _ | k
    · simp [MongoStore.query]
    · by_cases hk : k = "" <;> simp [MongoStore.query, truthyClauses, hk]
    · by_cases ht : t = "" <;> simp [MongoStore.query, truthyClauses, ht]
    · by_cases ht : t = "" <;> by_cases hk : k = "" <;>
        simp [MongoStore.query, truthyClauses, ht, hk]
  · intro hne hfalse
    rcases topic with _ | t <;> rcases keyword with _ | k
    · exact absurd ⟨rfl, rfl⟩ hne
    · simp only [strOptTruthy, Bool.false_or, bne_eq_false_iff_eq] at hfalse
      simp [MongoStore.query, truthyClauses, hfalse]
    · simp only [strOptTruthy, Bool.or_false, bne_eq_false_iff_eq] at hfalse
      simp [MongoStore.query, truthyClauses, hfalse]
    · simp only [strOptTruthy, Bool.or_eq_false_iff, bne_eq_false_iff_eq] at hfalse
      simp [MongoStore.query, truthyClauses, hfalse.1, hfalse.2]
  · intro htrue
    rcases topic with _ | t <;> rcases keyword with _ | k
    · simp [strOptTruthy] at htrue
    · have hk : ¬ k = "" := by simpa [strOptTruthy] using htrue
      have hkb : (k != "") = true := by simp [hk]
      simp [MongoStore.query, truthyClauses, hk, strOptTruthy, docMatchesClause, hkb]
    · have ht : ¬ t = "" := by simpa [strOptTruthy] using htrue
      have htb : (t != "") = true := by simp [ht]
      simp [MongoStore.query, truthyClauses, ht, strOptTruthy, docMatchesClause, htb]
    · by_cases ht : t = ""
      · have hk : ¬ k = "" := by
          subst ht
          simpa [strOptTruthy] using htrue
        have hkb : (k != "") = true := by simp [hk]
        simp [MongoStore.query, truthyClauses, ht, hk, strOptTruthy, docMatchesClause, hkb]
      · have htb : (t != "") = true := by simp [ht]
        by_cases hk : k = ""
        · simp [MongoStore.query, truthyClauses, ht, hk, strOptTruthy, docMatchesClause, htb]
        · have hkb : (k != "") = true := by simp [hk]
          simp [MongoStore.query, truthyClauses, ht, hk, strOptTruthy, docMatchesClause,
            htb, hkb]

theorem C6_query_semantics_witness :
    sQ.query (some "a") none = Except.ok [blankText pdT2] := by
  have h := (C6_query_semantics sQ (some "a") none).2.2 (by decide)
  exact h.trans (by decide)

/-- C7: list_meta yields each stored record exactly once with text blanked,
but in natural insertion order rather than newest-uploaded-first: no write
path ever sets the uploaded_at field the sort uses, so with pdB upserted
after pdA the yielded sequence still starts with pdA; newest-first would
start with pdB. -/
theorem C7_list_meta_natural_order :
    sAB = ((({} : MongoStore).upsert pdA).1.upsert pdB).1
    ∧ sAB.list_meta = [blankText pdA, blankText pdB] :=
  ⟨rfl, by decide⟩

/-- C10: set_summary writes only the per-length summaries entry of the
targeted document: every stored ParsedDocument projection is unchanged,
non-targeted documents are wholly unchanged, the unique document with the
id gets exactly the one map entry added or replaced with the rest of its
map intact, and with no matching id the call is a silent no-op. -/
theorem C10_set_summary_frame (s : MongoStore) (docId : String) (len : Int) (sum : String) :
    ((∀ m ∈ s.docs, m.doc.id ≠ docId) → s.set_summary docId len sum = s)
    ∧ (s.set_summary docId len sum).docs.map (fun m => m.doc) = s.docs.map (fun m => m.doc)
    ∧ (∀ m ∈ s.docs, m.doc.id ≠ docId → m ∈ (s.set_summary docId len sum).docs)
    ∧ (∀ l1 m0 l2, s.docs = l1 ++ m0 :: l2 → (∀ m ∈ l1, m.doc.id ≠ docId) →
        m0.doc.id = docId →
        (s.set_summary docId len sum).docs
          = l1 ++ { m0 with summaries := setEntry m0.summaries len sum } :: l2)
    ∧ (∀ es k, getEntry (setEntry es len sum) k = if k = len then some sum else getEntry es k) := by
  refine ⟨?_, ?_, ?_, ?_, ?_⟩
  · intro h
    unfold MongoStore.set_summary
    have he : updateFirst (fun m => m.doc.id == docId)
        (fun m => { m with summaries := setEntry m.summaries len sum }) s.docs = s.docs :=
      updateFirst_of_forall_neg (fun a ha => by simp [h a ha])
    rw [he]
  · unfold MongoStore.set_summary
    show (updateFirst (fun m => m.doc.id == docId)
        (fun m => { m with summaries := setEntry m.summaries len sum }) s.docs).map
        (fun m => m.doc)
      = s.docs.map (fun m => m.doc)
    exact updateFirst_map_eq (fun m => m.doc.id == docId)
      (fun m => { m with summaries := setEntry m.summaries len sum })
      (fun m => m.doc) (fun a _ => rfl) s.docs
  · intro m hm hne
    unfold MongoStore.set_summary
    show m ∈ updateFirst (fun m => m.doc.id == docId)
        (fun m => { m with summaries := setEntry m.summaries len sum }) s.docs
    exact mem_updateFirst_of_neg hm (by simp [hne])
  · intro l1 m0 l2 hsplit hl1 hm0
    unfold MongoStore.set_summary
    show updateFirst _ _ s.docs = _
    rw [hsplit, updateFirst_append_cons (by simp [hm0]) l1 l2
      (fun a ha => by simp [hl1 a ha])]
  · exact fun es k => getEntry_setEntry len sum es k

theorem C10_set_summary_frame_witness :
    sAB.set_summary "zzz" 2 "s2" = sAB
    ∧ (sAB.set_summary "ha" 3 "s3").docs
        = [{ toMongo pdA with summaries := [(3, "s3")] }, toMongo pdB] := by
  refine ⟨(C10_set_summary_frame sAB "zzz" 2 "s2").1 (by decide), ?_⟩
  have h := (C10_set_summary_frame sAB "ha" 3 "s3").2.2.2.1 [] (toMongo pdA) [toMongo pdB]
    (by decide) (by simp) (by decide)
  exact h.trans (by decide)

end DocService
